import Mathlib

/-!
Shallow embedding of the `youtube-search-results` repository (Go): a worker
that polls the YouTube search API and persists results into per-keyword
MongoDB collections (`worker/main.go`), and an HTTP query service that serves
paginated, searchable reads over those collections (`server/main.go`).

Conventions of the embedding:
* MongoDB is modelled as an explicit value (`Server.Store`, `Worker.WStore`):
  a list of named collections, each a list of documents.
* `publishedAt` timestamps are integers; the store-assigned `_id` is elided.
* Fallible store operations are modelled with `Except`/`Option`; mongo rejects
  a negative `skip`, so `findDocs` errors exactly there.
* The mongo `$text` match predicate is external database behaviour and is a
  parameter (`tm`) of the query model, so every theorem holds for any matcher.
* `cursor.Decode` is modelled as always succeeding (well-formed documents).
* `url.Values.Encode` percent-escaping and alphabetical key ordering are
  elided; links are compared structurally (which parameters, which values).
-/

namespace Server

/-- Mirrors `const defaultLimit = 10` in `server/main.go`. -/
def defaultLimit : Int := 10

/-- Mirrors `const maxLimit = 50` in `server/main.go`. -/
def maxLimit : Int := 50

/-- The `Video` document of `server/main.go` (store-assigned `_id` elided,
`publishedAt` as an integer timestamp). -/
structure Video where
  youtubeId : String
  title : String
  description : String
  publishedAt : Int
  thumbnailUrl : String
deriving DecidableEq

/-- The `Error` type of `server/main.go` (HTTP status code plus plain-text body). -/
structure Error where
  code : Nat
  message : String
deriving DecidableEq

/-- `internalError = Error{http.StatusInternalServerError, "Internal error"}`. -/
def internalError : Error := ⟨500, "Internal error"⟩

/-- The document store: named collections, each holding a list of documents. -/
structure Store where
  collections : List (String × List Video)
deriving DecidableEq

/-- `database.ListCollectionNames`. -/
def listNames (st : Store) : List String := st.collections.map Prod.fst

/-- The documents of a collection; a query on an absent collection sees no
documents (mongo returns an empty result there). -/
def docsOf (st : Store) (kw : String) : List Video :=
  ((st.collections.find? (fun p => p.1 == kw)).map Prod.snd).getD []

/-- An incoming HTTP request: host, URL path and the parsed query string. -/
structure Request where
  host : String
  path : String
  query : List (String × String)
deriving DecidableEq

/-- `keyword := r.URL.Path[len("/videos/"):]` (the literal has length 8). -/
def keywordOf (r : Request) : String := r.path.drop 8

/-- `url.Values.Get`: the first value stored for the key, or `""` if absent. -/
def getQ (q : List (String × String)) (k : String) : String :=
  match q.find? (fun p => p.1 == k) with
  | some p => p.2
  | none => ""

/-- `url.Values.Set`: replace every value of the key by the single given one. -/
def setQ (q : List (String × String)) (k v : String) : List (String × String) :=
  q.filter (fun p => !(p.1 == k)) ++ [(k, v)]

/-- `url.Values.Encode` (percent-escaping and key sorting elided). -/
def encodeQuery : List (String × String) → String
  | [] => ""
  | (k, v) :: [] => k ++ "=" ++ v
  | (k, v) :: rest => k ++ "=" ++ v ++ "&" ++ encodeQuery rest

/-- `req.Host + req.URL.String()` for a request whose query was re-encoded;
the query here always contains at least the `page` parameter. -/
def renderUrl (r : Request) (q : List (String × String)) : String :=
  r.host ++ r.path ++ "?" ++ encodeQuery q

/-- Digit run consumed by `atoi` (accumulator style). -/
def readDigits : List Char → Nat → Option Nat
  | [], acc => some acc
  | c :: cs, acc => if c.isDigit then readDigits cs (10 * acc + (c.toNat - 48)) else none

/-- `strconv.Atoi`: optional sign then a non-empty digit run; anything else is
an error (modelled as `none`; machine-word overflow is not modelled). -/
def atoi (s : String) : Option Int :=
  match s.data with
  | [] => none
  | '-' :: cs => if cs.isEmpty then none else (readDigits cs 0).map (fun n => -(n : Int))
  | '+' :: cs => if cs.isEmpty then none else (readDigits cs 0).map (fun n => (n : Int))
  | cs => (readDigits cs 0).map (fun n => (n : Int))

/-- `page, err := strconv.Atoi(q.Get("page")); if err != nil { page = 0 }`. -/
def parsePage (r : Request) : Int := (atoi (getQ r.query "page")).getD 0

/-- `limit, err := strconv.Atoi(q.Get("limit")); if err != nil { limit = defaultLimit }`. -/
def parseLimit (r : Request) : Int := (atoi (getQ r.query "limit")).getD defaultLimit

/-- The linear scan `keywordExistsIn` of `server/main.go`. -/
def keywordExistsIn (kw : String) : List String → Bool
  | [] => false
  | c :: rest => if c == kw then true else keywordExistsIn kw rest

/-- `validateKeyword`: consult the process-local collection cache, on a miss
refresh it from the store and recheck.  `listOk` says whether
`ListCollectionNames` succeeds on this request.  Returns the error (if any)
and the cache as left behind by the call. -/
def validateKeyword (cache : List String) (listOk : Bool) (st : Store) (kw : String) :
    Option Error × List String :=
  if keywordExistsIn kw cache then (none, cache)
  else if !listOk then (some internalError, cache)
  else if keywordExistsIn kw (listNames st) then (none, listNames st)
  else (some ⟨400, "Videos for " ++ kw ++ " are not being collected"⟩, listNames st)

/-- Insertion step of the descending-`publishedAt` sort used by the store. -/
def insertDesc (v : Video) : List Video → List Video
  | [] => [v]
  | w :: ws => if w.publishedAt ≤ v.publishedAt then v :: w :: ws else w :: insertDesc v ws

/-- The store's `bson.D{{"publishedAt", -1}}` sort, as a deterministic
insertion sort (most recent first). -/
def sortDesc : List Video → List Video
  | [] => []
  | v :: vs => insertDesc v (sortDesc vs)

/-- The documents the query matches, in served order: the `$text` filter
(absent when `search` is empty) followed by the descending sort.  `tm`
abstracts mongo's text-match predicate. -/
def matchingRows (tm : String → Video → Bool) (st : Store) (kw search : String) : List Video :=
  sortDesc (if search == "" then docsOf st kw else (docsOf st kw).filter (tm search))

/-- Mongo `limit`: 0 means unlimited, a negative limit acts as its absolute
value (single batch). -/
def applyLimit (lim : Int) (xs : List Video) : List Video :=
  if lim = 0 then xs else xs.take lim.natAbs

/-- `collection.Find` with `SetSkip`/`SetLimit`/`SetSort`: mongo rejects a
negative skip value with a `BadValue` error. -/
def findDocs (tm : String → Video → Bool) (st : Store) (kw search : String) (skip lim : Int) :
    Except Unit (List Video) :=
  if skip < 0 then .error ()
  else .ok (applyLimit lim ((matchingRows tm st kw search).drop skip.toNat))

/-- `videosResponseMsg` of `server/main.go`.  None of the json tags carries
`omitempty`, so every field is serialized; `""` is the zero value of
`Prev`/`Next`. -/
structure videosResponseMsg where
  page : Int
  limit : Int
  result : List Video
  prev : String
  next : String
deriving DecidableEq

/-- Outcome of one request: an HTTP error response or a 200 JSON envelope. -/
inductive HttpResult where
  | err : Error → HttpResult
  | ok : videosResponseMsg → HttpResult
deriving DecidableEq

/-- The cursor loop of `getVideos`: `i` starts at 1; before decoding, when
`i > limit` the next-link is flagged; the document is then appended anyway
(`Decode` modelled as always succeeding).  Returns the accumulated `videos`
and whether the next-link was set. -/
def cursorLoop (limit : Int) : Int → List Video → List Video × Bool
  | _, [] => ([], false)
  | i, d :: rest =>
    let hit : Bool := decide (limit < i)
    let tail := cursorLoop limit (i + 1) rest
    (d :: tail.1, hit || tail.2)

/-- `getVideos` of `server/main.go`.  A `limit` above `maxLimit` is only
logged, so it does not alter the computation. -/
def getVideos (tm : String → Video → Bool) (cache : List String) (listOk : Bool)
    (st : Store) (r : Request) : HttpResult :=
  match (validateKeyword cache listOk st (keywordOf r)).1 with
  | some e => .err e
  | none =>
    let page := parsePage r
    let limit := parseLimit r
    match findDocs tm st (keywordOf r) (getQ r.query "search") (page * limit) (limit + 1) with
    | .error _ => .err internalError
    | .ok fetched =>
      let lr := cursorLoop limit 1 fetched
      let next := if lr.2 then renderUrl r (setQ r.query "page" (toString (page + 1))) else ""
      let base : videosResponseMsg := ⟨page, limit, lr.1, "", ""⟩
      let base1 := if next != "" then { base with next := next } else base
      let base2 := if page != 0 then
          { base1 with prev := renderUrl r (setQ r.query "page" (toString (page - 1))) }
        else base1
      .ok base2

/-- The window of documents the find returns for the request (skip `page*limit`,
limit `limit+1`). -/
def fetchedRows (tm : String → Video → Bool) (st : Store) (r : Request) : List Video :=
  applyLimit (parseLimit r + 1)
    ((matchingRows tm st (keywordOf r) (getQ r.query "search")).drop
      (parsePage r * parseLimit r).toNat)

/-- The next-link URL: the request URL with `page` set to `page+1`. -/
def nextUrl (r : Request) : String :=
  renderUrl r (setQ r.query "page" (toString (parsePage r + 1)))

/-- The prev-link URL: the request URL with `page` set to `page-1`. -/
def prevUrl (r : Request) : String :=
  renderUrl r (setQ r.query "page" (toString (parsePage r - 1)))

/-- The `next` string as left by the cursor loop: the next-link URL when the
probe position was reached, `""` otherwise. -/
def nextOf (tm : String → Video → Bool) (st : Store) (r : Request) : String :=
  if (cursorLoop (parseLimit r) 1 (fetchedRows tm st r)).2 then nextUrl r else ""

/-- The 200 envelope `getVideos` builds on its success path. -/
def okResponse (tm : String → Video → Bool) (st : Store) (r : Request) : videosResponseMsg :=
  ⟨parsePage r, parseLimit r, (cursorLoop (parseLimit r) 1 (fetchedRows tm st r)).1,
    if parsePage r != 0 then prevUrl r else "",
    if nextOf tm st r != "" then nextOf tm st r else ""⟩

/-- JSON values, enough to express what `encoding/json` emits. -/
inductive Json where
  | str : String → Json
  | num : Int → Json
  | arr : List Json → Json
  | obj : List (String × Json) → Json

/-- `encoding/json` on `Video`: every tag carries `omitempty`, so zero-valued
fields are dropped (`_id` elided, timestamp rendered numerically). -/
def encodeVideo (v : Video) : Json :=
  Json.obj
    ((if v.youtubeId = "" then [] else [("youtubeId", Json.str v.youtubeId)]) ++
     (if v.title = "" then [] else [("title", Json.str v.title)]) ++
     (if v.description = "" then [] else [("description", Json.str v.description)]) ++
     (if v.publishedAt = 0 then [] else [("publishedAt", Json.num v.publishedAt)]) ++
     (if v.thumbnailUrl = "" then [] else [("thumbnailUrl", Json.str v.thumbnailUrl)]))

/-- `encoding/json` on `videosResponseMsg`: no tag carries `omitempty`, so all
five fields are always emitted. -/
def encodeResponse (m : videosResponseMsg) : Json :=
  Json.obj [("page", Json.num m.page), ("limit", Json.num m.limit),
    ("result", Json.arr (m.result.map encodeVideo)),
    ("prev", Json.str m.prev), ("next", Json.str m.next)]

/-- The field names of a JSON object. -/
def keysOf : Json → List String
  | Json.obj fields => fields.map Prod.fst
  | _ => []

/-- Observer: the 200 body of a result, if any. -/
def respOf : HttpResult → Option videosResponseMsg
  | .ok m => some m
  | .err _ => none

/-- Observer: the error of a result, if any. -/
def errOf : HttpResult → Option Error
  | .err e => some e
  | .ok _ => none

/-- A text matcher for concrete test stores (matches everything). -/
def tm0 : String → Video → Bool := fun _ _ => true

def v1 : Video := ⟨"a1", "t1", "d1", 2, "u1"⟩

def v2 : Video := ⟨"a2", "t2", "d2", 1, "u2"⟩

/-- Concrete store: one collection `music` holding two documents. -/
def st0 : Store := ⟨[("music", [v1, v2])]⟩

def cache0 : List String := ["music"]

def r0 : Request := ⟨"localhost:8080", "/videos/music", [("page", "0"), ("limit", "1")]⟩

def r1 : Request := ⟨"localhost:8080", "/videos/music", [("page", "1"), ("limit", "1")]⟩

def r2 : Request := ⟨"localhost:8080", "/videos/music", [("page", "-1")]⟩

def r3 : Request := ⟨"localhost:8080", "/videos/music", [("page", "x"), ("limit", "60")]⟩

def r4 : Request := ⟨"localhost:8080", "/videos/music", [("page", "3")]⟩

def rNews : Request := ⟨"localhost:8080", "/videos/news", []⟩

end Server

namespace Worker

/-- The `Video` document of `worker/main.go` (same shape as the server copy;
the duplication mirrors the source). -/
structure Video where
  youtubeId : String
  title : String
  description : String
  publishedAt : Int
  thumbnailUrl : String
deriving DecidableEq

/-- One item of a YouTube search response: id and snippet fields;
`publishedAt` is `none` when the RFC3339 string fails to parse. -/
structure SearchItem where
  videoId : String
  title : String
  description : String
  publishedAt : Option Int
  thumbnailUrl : String
deriving DecidableEq

/-- The response of `call.Do()` on success. -/
structure SearchResponse where
  items : List SearchItem
deriving DecidableEq

/-- A Go computation that either returns a value or panics at runtime. -/
inductive GoResult (α : Type) where
  | ok : α → GoResult α
  | panic : String → GoResult α
deriving DecidableEq

/-- The per-item conversion inside `fetchVideos`: an unparsable
`PublishedAt` is logged and the field keeps its zero value. -/
def itemToVideo (it : SearchItem) : Video :=
  ⟨it.videoId, it.title, it.description, it.publishedAt.getD 0, it.thumbnailUrl⟩

/-- `fetchVideos` of `worker/main.go`.  `clientOk` models
`s.youtubeClient != nil`.  `apiResp` is the `call.Do()` result: `none` means
the call returned an error together with a nil response pointer (the Go API
contract).  On that error the code only logs and then evaluates
`response.Items`, a nil-pointer dereference — a runtime panic. -/
def fetchVideos (clientOk : Bool) (apiResp : Option SearchResponse) : GoResult (List Video) :=
  if !clientOk then .ok []
  else
    match apiResp with
    | none => .panic "runtime error: invalid memory address or nil pointer dereference"
    | some resp => .ok (resp.items.map itemToVideo)

/-- The ids (`youtubeId` values) of a document list. -/
def ids (l : List Video) : List String := l.map Video.youtubeId

/-- The worker's copy of the linear scan `keywordExistsIn`. -/
def keywordExistsIn (kw : String) : List String → Bool
  | [] => false
  | c :: rest => if c == kw then true else keywordExistsIn kw rest

/-- The worker's document store. -/
structure WStore where
  collections : List (String × List Video)
deriving DecidableEq

/-- `ListCollectionNames` on the worker's store. -/
def names (st : WStore) : List String := st.collections.map Prod.fst

/-- The documents currently held by a collection (empty when absent). -/
def docsOf (st : WStore) (kw : String) : List Video :=
  ((st.collections.find? (fun p => p.1 == kw)).map Prod.snd).getD []

/-- Creating a collection server-side (as `createIndexes` implicitly does in
mongo); a no-op when it already exists. -/
def createCollection (st : WStore) (kw : String) : WStore :=
  if keywordExistsIn kw (names st) then st else ⟨st.collections ++ [(kw, [])]⟩

/-- Replace (or create) the document list of a collection. -/
def setDocs (st : WStore) (kw : String) (docs : List Video) : WStore :=
  if keywordExistsIn kw (names st) then
    ⟨st.collections.map (fun p => if p.1 == kw then (p.1, docs) else p)⟩
  else ⟨st.collections ++ [(kw, docs)]⟩

/-- `collectionExists`: cache hit, else refresh the cache from the store's
collection list and recheck.  `ListCollectionNames` is modelled as
succeeding (a reachable store).  Returns the answer and the cache as left
behind. -/
def collectionExists (cache storeNames : List String) (kw : String) : Bool × List String :=
  if keywordExistsIn kw cache then (true, cache)
  else (keywordExistsIn kw storeNames, storeNames)

/-- `InsertMany` with `SetOrdered(false)` against the unique `youtubeId`
index: every document of the batch is attempted; one whose id is already
present is skipped and flags a duplicate-key write error, which does not
stop the remaining documents.  Returns the new document list and whether
the batch write reported an error. -/
def insertManyUnordered (existing : List Video) : List Video → List Video × Bool
  | [] => (existing, false)
  | v :: rest =>
    if v.youtubeId ∈ ids existing then
      ((insertManyUnordered existing rest).1, true)
    else insertManyUnordered (existing ++ [v]) rest

/-- The state a persist step works on: the process-local collection cache and
the shared store. -/
structure WState where
  cache : List String
  store : WStore
deriving DecidableEq

/-- `saveVideosToDB`: check collection existence (cache miss refreshes from
the store), create the indexes (and thereby the collection) only when the
pre-check said it did not exist, then issue the unordered batch insert.
An insert error is logged, not fatal.  The returned `Bool` records whether
`createIndexes` was executed on this call. -/
def saveVideosToDB (s : WState) (kw : String) (videos : List Video) : WState × Bool :=
  let ex := collectionExists s.cache (names s.store) kw
  let store1 := if ex.1 then s.store else createCollection s.store kw
  let ins := insertManyUnordered (docsOf store1 kw) videos
  (⟨ex.2, setDocs store1 kw ins.1⟩, !ex.1)

/-- A sequence of persist calls for the same keyword (one per poll cycle that
returned items); counts how many of them executed `createIndexes`. -/
def runPersists (s : WState) (kw : String) : List (List Video) → WState × Nat
  | [] => (s, 0)
  | b :: bs =>
    let step := saveVideosToDB s kw b
    let rest := runPersists step.1 kw bs
    (rest.1, (if step.2 then 1 else 0) + rest.2)

def w1 : Video := ⟨"a1", "t1", "d1", 2, "u1"⟩

def w2 : Video := ⟨"a2", "t2", "d2", 1, "u2"⟩

def w3 : Video := ⟨"a3", "t3", "d3", 3, "u3"⟩

/-- A fresh worker state: empty cache (as after `New`) and an empty store. -/
def ws0 : WState := ⟨[], ⟨[]⟩⟩

end Worker

namespace Server

theorem cursorLoop_fst (limit : Int) (l : List Video) :
    ∀ i : Int, (cursorLoop limit i l).1 = l := by
  induction l with
  | nil => intro i; rfl
  | cons d rest ih => intro i; simp [cursorLoop, ih (i + 1)]

theorem cursorLoop_snd_iff (limit : Int) (l : List Video) :
    ∀ i : Int, ((cursorLoop limit i l).2 = true ↔
      0 < l.length ∧ limit < i + l.length - 1) := by
  induction l with
  | nil => intro i; simp [cursorLoop]
  | cons d rest ih =>
    intro i
    simp only [cursorLoop, Bool.or_eq_true, decide_eq_true_eq, ih (i + 1), List.length_cons]
    push_cast
    omega

theorem renderUrl_ne_empty (r : Request) (q : List (String × String)) :
    renderUrl r q ≠ "" := by
  intro h
  have h1 : (renderUrl r q).length = 0 := by rw [h]; rfl
  unfold renderUrl at h1
  rw [String.length_append, String.length_append, String.length_append] at h1
  have h2 : ("?" : String).length = 1 := rfl
  omega

theorem okResponse_page (tm : String → Video → Bool) (st : Store) (r : Request) :
    (okResponse tm st r).page = parsePage r := rfl

theorem okResponse_limit (tm : String → Video → Bool) (st : Store) (r : Request) :
    (okResponse tm st r).limit = parseLimit r := rfl

theorem okResponse_result (tm : String → Video → Bool) (st : Store) (r : Request) :
    (okResponse tm st r).result = fetchedRows tm st r :=
  cursorLoop_fst (parseLimit r) (fetchedRows tm st r) 1

theorem okResponse_prev (tm : String → Video → Bool) (st : Store) (r : Request) :
    (okResponse tm st r).prev = if parsePage r != 0 then prevUrl r else "" := rfl

theorem okResponse_next (tm : String → Video → Bool) (st : Store) (r : Request) :
    (okResponse tm st r).next = nextOf tm st r := by
  show (if nextOf tm st r != "" then nextOf tm st r else "") = nextOf tm st r
  by_cases h : nextOf tm st r = ""
  · simp [h]
  · simp [h]

theorem nextOf_ne_empty_iff (tm : String → Video → Bool) (st : Store) (r : Request) :
    nextOf tm st r ≠ "" ↔ (cursorLoop (parseLimit r) 1 (fetchedRows tm st r)).2 = true := by
  unfold nextOf
  cases hb : (cursorLoop (parseLimit r) 1 (fetchedRows tm st r)).2 with
  | false => simp
  | true =>
    simpa [nextUrl] using
      renderUrl_ne_empty r (setQ r.query "page" (toString (parsePage r + 1)))

theorem length_fetchedRows (tm : String → Video → Bool) (st : Store) (r : Request)
    (hl : 0 ≤ parseLimit r) :
    (fetchedRows tm st r).length =
      min ((parseLimit r).toNat + 1)
        ((matchingRows tm st (keywordOf r) (getQ r.query "search")).length -
          (parsePage r * parseLimit r).toNat) := by
  unfold fetchedRows applyLimit
  have hne : parseLimit r + 1 ≠ 0 := by omega
  rw [if_neg hne, List.length_take, List.length_drop]
  congr 1
  omega

theorem getVideos_ok_eq (tm : String → Video → Bool) (cache : List String) (listOk : Bool)
    (st : Store) (r : Request)
    (hkw : keywordExistsIn (keywordOf r) cache = true)
    (hskip : 0 ≤ parsePage r * parseLimit r) :
    getVideos tm cache listOk st r = .ok (okResponse tm st r) := by
  have hs : ¬ (parsePage r * parseLimit r < 0) := not_lt.mpr hskip
  have h1 : (validateKeyword cache listOk st (keywordOf r)).1 = none := by
    simp [validateKeyword, hkw]
  have h2 : findDocs tm st (keywordOf r) (getQ r.query "search")
      (parsePage r * parseLimit r) (parseLimit r + 1) = .ok (fetchedRows tm st r) := by
    unfold findDocs fetchedRows
    rw [if_neg hs]
  unfold getVideos okResponse nextOf nextUrl prevUrl
  simp only [h1, h2]
  generalize cursorLoop (parseLimit r) 1 (fetchedRows tm st r) = lr
  obtain ⟨vs, b⟩ := lr
  cases b <;> cases hp : (parsePage r != 0) <;> simp [hp, renderUrl_ne_empty]

theorem getVideos_find_fail (tm : String → Video → Bool) (cache : List String) (listOk : Bool)
    (st : Store) (r : Request)
    (hkw : keywordExistsIn (keywordOf r) cache = true)
    (hs : parsePage r * parseLimit r < 0) :
    getVideos tm cache listOk st r = .err internalError := by
  unfold getVideos
  simp [validateKeyword, hkw, findDocs, hs]

/-- C1: the spec excludes the probe document (the `limit+1`-th fetched
document) from the returned result list.  The cursor loop of `getVideos`
appends it after flagging the next link, so the 200 body for
`GET /videos/music?page=0&limit=1` over a 2-document collection carries 2
result documents while echoing `limit = 1`. -/
theorem c1_probe_document_is_returned :
    (respOf (getVideos tm0 cache0 true st0 r0)).map
      (fun m => (m.limit, m.result.length)) = some (1, 2) := by decide

/-- C3: concatenating pages 0 and 1 (limit 1) over the 2-document collection
serves the stored document `v2` twice — once as the probe document of page 0
and once as the sole document of page 1 — though it is stored exactly once. -/
theorem c3_concatenated_pages_repeat_a_document :
    (((respOf (getVideos tm0 cache0 true st0 r0)).elim [] videosResponseMsg.result ++
        (respOf (getVideos tm0 cache0 true st0 r1)).elim [] videosResponseMsg.result).count v2
      = 2) ∧
    (docsOf st0 "music").count v2 = 1 := by decide

/-- C5: a keyword absent from the cache and, after the refresh, from the
store's collection list draws the 400 response whose plain-text body names
the keyword; a failure of `ListCollectionNames` draws the 500
`internalError` instead — the two error classes are never conflated. -/
theorem c5_unknown_keyword_400_list_failure_500 (tm : String → Video → Bool)
    (cache : List String) (st : Store) (r : Request)
    (hc : keywordExistsIn (keywordOf r) cache = false) :
    (keywordExistsIn (keywordOf r) (listNames st) = false →
      getVideos tm cache true st r =
        .err ⟨400, "Videos for " ++ keywordOf r ++ " are not being collected"⟩) ∧
    (getVideos tm cache false st r = .err internalError ∧ internalError.code = 500) := by
  refine ⟨fun habs => ?_, ?_, rfl⟩
  · unfold getVideos
    simp [validateKeyword, hc, habs]
  · unfold getVideos
    simp [validateKeyword, hc]

theorem nextOf_ne_iff_count (tm : String → Video → Bool) (st : Store) (r : Request)
    (hp : 0 ≤ parsePage r) (hl : 0 ≤ parseLimit r) :
    nextOf tm st r ≠ "" ↔
      ((matchingRows tm st (keywordOf r) (getQ r.query "search")).length : Int) >
        (parsePage r + 1) * parseLimit r := by
  have hskip0 : 0 ≤ parsePage r * parseLimit r := mul_nonneg hp hl
  have e3 : (parsePage r + 1) * parseLimit r =
      parsePage r * parseLimit r + parseLimit r := by ring
  rw [nextOf_ne_empty_iff, cursorLoop_snd_iff (parseLimit r) (fetchedRows tm st r) 1,
    length_fetchedRows tm st r hl, e3]
  obtain ⟨S, hS⟩ : ∃ S : Int, parsePage r * parseLimit r = S := ⟨_, rfl⟩
  rw [hS] at hskip0 ⊢
  obtain ⟨L, hL2⟩ : ∃ L : Int, parseLimit r = L := ⟨_, rfl⟩
  rw [hL2] at hl ⊢
  clear hS hL2
  omega

theorem nextOf_eq_of_ne (tm : String → Video → Bool) (st : Store) (r : Request)
    (h : nextOf tm st r ≠ "") : nextOf tm st r = nextUrl r := by
  unfold nextOf at h ⊢
  cases hb : (cursorLoop (parseLimit r) 1 (fetchedRows tm st r)).2
  · simp [hb] at h
  · simp [hb]

/-- C4: for a successful request (known keyword, non-negative parsed page and
limit) the next link is present iff the collection holds more than
`(page+1)*limit` matching documents — equivalently iff the `limit+1` probe
fetch returned more than `limit` documents — and, when present, it is the
request URL with `page` replaced by `page+1`. -/
theorem c4_next_link_iff_more_documents (tm : String → Video → Bool)
    (cache : List String) (st : Store) (r : Request)
    (hkw : keywordExistsIn (keywordOf r) cache = true)
    (hp : 0 ≤ parsePage r) (hl : 0 ≤ parseLimit r) :
    ∃ resp, getVideos tm cache true st r = .ok resp ∧
      (resp.next ≠ "" ↔
        ((matchingRows tm st (keywordOf r) (getQ r.query "search")).length : Int) >
          (parsePage r + 1) * parseLimit r) ∧
      (resp.next ≠ "" ↔ ((fetchedRows tm st r).length : Int) > parseLimit r) ∧
      resp.next = (if ((matchingRows tm st (keywordOf r) (getQ r.query "search")).length : Int) >
            (parsePage r + 1) * parseLimit r
        then renderUrl r (setQ r.query "page" (toString (parsePage r + 1))) else "") := by
  have hskip : 0 ≤ parsePage r * parseLimit r := mul_nonneg hp hl
  refine ⟨okResponse tm st r, getVideos_ok_eq tm cache true st r hkw hskip, ?_, ?_, ?_⟩
  · rw [okResponse_next]
    exact nextOf_ne_iff_count tm st r hp hl
  · rw [okResponse_next, nextOf_ne_empty_iff,
      cursorLoop_snd_iff (parseLimit r) (fetchedRows tm st r) 1]
    obtain ⟨L, hL2⟩ : ∃ L : Int, parseLimit r = L := ⟨_, rfl⟩
    rw [hL2] at hl ⊢
    clear hL2
    omega
  · rw [okResponse_next]
    by_cases h : ((matchingRows tm st (keywordOf r) (getQ r.query "search")).length : Int) >
        (parsePage r + 1) * parseLimit r
    · rw [if_pos h, nextOf_eq_of_ne tm st r ((nextOf_ne_iff_count tm st r hp hl).mpr h)]
      rfl
    · rw [if_neg h]
      rcases eq_or_ne (nextOf tm st r) "" with he | hne
      · exact he
      · exact absurd ((nextOf_ne_iff_count tm st r hp hl).mp hne) h

/-- C8: an absent or unparsable page parameter defaults to 0, an absent or
unparsable limit parameter defaults to `defaultLimit = 10`, and a limit
above `maxLimit = 50` is used unchanged (no clamping) in the skip
computation and in the `limit+1` probe fetch. -/
theorem c8_defaults_and_unclamped_limit (tm : String → Video → Bool)
    (cache : List String) (st : Store) (r : Request)
    (hkw : keywordExistsIn (keywordOf r) cache = true)
    (hskip : 0 ≤ parsePage r * parseLimit r) :
    (atoi (getQ r.query "page") = none →
      ∃ resp, getVideos tm cache true st r = .ok resp ∧ resp.page = 0) ∧
    (atoi (getQ r.query "limit") = none →
      ∃ resp, getVideos tm cache true st r = .ok resp ∧ resp.limit = defaultLimit) ∧
    (∀ L : Int, atoi (getQ r.query "limit") = some L → maxLimit < L →
      ∃ resp, getVideos tm cache true st r = .ok resp ∧ resp.limit = L ∧
        resp.result = applyLimit (L + 1)
          ((matchingRows tm st (keywordOf r) (getQ r.query "search")).drop
            (parsePage r * L).toNat)) := by
  refine ⟨fun hpn => ⟨_, getVideos_ok_eq tm cache true st r hkw hskip, ?_⟩,
          fun hln => ⟨_, getVideos_ok_eq tm cache true st r hkw hskip, ?_⟩,
          fun L hsl hml => ⟨_, getVideos_ok_eq tm cache true st r hkw hskip, ?_, ?_⟩⟩
  · rw [okResponse_page]
    unfold parsePage
    rw [hpn]
    rfl
  · rw [okResponse_limit]
    unfold parseLimit
    rw [hln]
    rfl
  · rw [okResponse_limit]
    unfold parseLimit
    rw [hsl]
    rfl
  · rw [okResponse_result]
    have hL : parseLimit r = L := by
      unfold parseLimit
      rw [hsl]
      rfl
    unfold fetchedRows
    rw [hL]

/-- C9: the claim says `prev` is omitted from the 200 body when `page == 0`.
No json tag of `videosResponseMsg` carries `omitempty`, so the encoded body
of `GET /videos/music?page=0&limit=1` still contains the `prev` field,
holding `""` — the field is emitted, not omitted. -/
theorem c9_prev_field_emitted_at_page_zero :
    (respOf (getVideos tm0 cache0 true st0 r0)).map
      (fun m => (m.page, keysOf (encodeResponse m), m.prev)) =
      some (0, ["page", "limit", "result", "prev", "next"], "") := by decide

/-- C9 amended: every 200 JSON response emits all five envelope fields —
`prev` and `next` are never omitted; `prev` holds `""` exactly when
`page = 0` (a URL otherwise) and `next` holds `""` exactly when no matching
documents lie beyond position `(page+1)*limit` (a URL otherwise). -/
theorem c9_prev_next_always_emitted (tm : String → Video → Bool)
    (cache : List String) (st : Store) (r : Request)
    (hkw : keywordExistsIn (keywordOf r) cache = true)
    (hp : 0 ≤ parsePage r) (hl : 0 ≤ parseLimit r) :
    ∃ resp, getVideos tm cache true st r = .ok resp ∧
      keysOf (encodeResponse resp) = ["page", "limit", "result", "prev", "next"] ∧
      (resp.prev = "" ↔ parsePage r = 0) ∧
      (resp.next = "" ↔
        ¬ (((matchingRows tm st (keywordOf r) (getQ r.query "search")).length : Int) >
          (parsePage r + 1) * parseLimit r)) := by
  refine ⟨_, getVideos_ok_eq tm cache true st r hkw (mul_nonneg hp hl), rfl, ?_, ?_⟩
  · rw [okResponse_prev]
    by_cases h : parsePage r = 0
    · simp [h]
    · simp [h, prevUrl, renderUrl_ne_empty]
  · rw [okResponse_next]
    have h := nextOf_ne_iff_count tm st r hp hl
    constructor
    · intro he hgt
      exact (h.mpr hgt) he
    · intro hng
      by_contra hne
      exact hng (h.mp hne)

/-- C10: a page parameter parsing to a negative integer n is accepted, not
rejected as a client error: the only error the handler can then return is
the 500 `internalError` (never a 400); when the skip `n*limit` is negative
the find fails and the response is exactly that 500; and any 200 response
carries a prev link holding the request URL with `page` set to `n-1`. -/
theorem c10_negative_page_accepted (tm : String → Video → Bool)
    (cache : List String) (st : Store) (r : Request) (n : Int)
    (hparse : atoi (getQ r.query "page") = some n) (hn : n < 0)
    (hkw : keywordExistsIn (keywordOf r) cache = true) :
    (∀ e, getVideos tm cache true st r = .err e → e = internalError) ∧
    (n * parseLimit r < 0 → getVideos tm cache true st r = .err internalError) ∧
    (∀ resp, getVideos tm cache true st r = .ok resp →
      resp.prev = renderUrl r (setQ r.query "page" (toString (n - 1))) ∧ resp.prev ≠ "") := by
  have hpage : parsePage r = n := by
    unfold parsePage
    rw [hparse]
    rfl
  refine ⟨?_, ?_, ?_⟩
  · intro e he
    by_cases hs : parsePage r * parseLimit r < 0
    · rw [getVideos_find_fail tm cache true st r hkw hs] at he
      exact (HttpResult.err.inj he).symm
    · rw [getVideos_ok_eq tm cache true st r hkw (not_lt.mp hs)] at he
      exact absurd he (by simp)
  · intro hneg
    apply getVideos_find_fail tm cache true st r hkw
    rw [hpage]
    exact hneg
  · intro resp hresp
    by_cases hs : parsePage r * parseLimit r < 0
    · rw [getVideos_find_fail tm cache true st r hkw hs] at hresp
      exact absurd hresp (by simp)
    · rw [getVideos_ok_eq tm cache true st r hkw (not_lt.mp hs)] at hresp
      have hr : resp = okResponse tm st r := (HttpResult.ok.inj hresp).symm
      subst hr
      have hn0 : n ≠ 0 := by omega
      rw [okResponse_prev]
      unfold prevUrl
      rw [hpage]
      simp only [bne_iff_ne, ne_eq, hn0, not_false_eq_true, if_true]
      exact ⟨trivial, renderUrl_ne_empty r (setQ r.query "page" (toString (n - 1)))⟩

end Server

namespace Worker

/-- C2: the spec says an API failure is logged and the cycle proceeds with an
empty result list, never crashing the loop.  On failure `call.Do()` returns
an error together with a nil response; `fetchVideos` only logs the error and
then evaluates `response.Items` — a nil-pointer dereference, so the call
panics (crashing the poll loop) instead of returning an empty list. -/
theorem c2_api_failure_panics :
    fetchVideos true none =
      GoResult.panic "runtime error: invalid memory address or nil pointer dereference" ∧
    fetchVideos true none ≠ GoResult.ok [] := by decide

theorem keywordExistsIn_append_self (kw : String) (l : List String) :
    keywordExistsIn kw (l ++ [kw]) = true := by
  induction l with
  | nil => simp [keywordExistsIn]
  | cons c rest ih => simp [keywordExistsIn, ih]

theorem names_createCollection (st : WStore) (kw : String) :
    keywordExistsIn kw (names (createCollection st kw)) = true := by
  unfold createCollection
  by_cases h : keywordExistsIn kw (names st) = true
  · rw [if_pos h]
    exact h
  · rw [if_neg h]
    have e : names ⟨st.collections ++ [(kw, [])]⟩ = names st ++ [kw] := by
      unfold names
      simp
    rw [e]
    exact keywordExistsIn_append_self kw (names st)

theorem names_setDocs_mem (st : WStore) (kw : String) (docs : List Video) :
    keywordExistsIn kw (names (setDocs st kw docs)) = true := by
  unfold setDocs
  by_cases h : keywordExistsIn kw (names st) = true
  · rw [if_pos h]
    have e : names ⟨st.collections.map (fun p => if p.1 == kw then (p.1, docs) else p)⟩ =
        names st := by
      unfold names
      rw [List.map_map]
      congr 1
      funext p
      by_cases hp : p.1 = kw
      · simp [hp]
      · simp [hp]
    rw [e]
    exact h
  · rw [if_neg h]
    have e : names ⟨st.collections ++ [(kw, docs)]⟩ = names st ++ [kw] := by
      unfold names
      simp
    rw [e]
    exact keywordExistsIn_append_self kw (names st)

theorem saveVideos_exists_step (s : WState) (kw : String) (b : List Video)
    (h : keywordExistsIn kw (names s.store) = true) :
    (saveVideosToDB s kw b).2 = false ∧
    keywordExistsIn kw (names (saveVideosToDB s kw b).1.store) = true := by
  unfold saveVideosToDB collectionExists
  by_cases hc : keywordExistsIn kw s.cache = true
  · simp [hc, names_setDocs_mem]
  · simp [hc, h, names_setDocs_mem]

theorem saveVideos_first_step (s : WState) (kw : String) (b : List Video)
    (hcache : keywordExistsIn kw s.cache = false)
    (hstore : keywordExistsIn kw (names s.store) = false) :
    (saveVideosToDB s kw b).2 = true ∧
    keywordExistsIn kw (names (saveVideosToDB s kw b).1.store) = true := by
  unfold saveVideosToDB collectionExists
  simp [hcache, hstore, names_setDocs_mem]

theorem runPersists_zero_of_exists (kw : String) (batches : List (List Video)) :
    ∀ s : WState, keywordExistsIn kw (names s.store) = true →
      (runPersists s kw batches).2 = 0 := by
  induction batches with
  | nil => intro s h; rfl
  | cons b bs ih =>
    intro s h
    have hstep := saveVideos_exists_step s kw b h
    simp [runPersists, hstep.1, ih _ hstep.2]

/-- C6: starting from a state in which the keyword's collection does not yet
exist (and is not cached), a non-empty sequence of persist calls for that
keyword executes `createIndexes` exactly once — on the first persist — no
matter how many insert batches follow. -/
theorem c6_indexes_created_exactly_once (s : WState) (kw : String)
    (batches : List (List Video))
    (hcache : keywordExistsIn kw s.cache = false)
    (hstore : keywordExistsIn kw (names s.store) = false)
    (hne : batches ≠ []) :
    (runPersists s kw batches).2 = 1 := by
  cases batches with
  | nil => exact absurd rfl hne
  | cons b bs =>
    have hstep := saveVideos_first_step s kw b hcache hstore
    simp [runPersists, hstep.1, runPersists_zero_of_exists kw bs _ hstep.2]

theorem ids_cons (v : Video) (l : List Video) :
    ids (v :: l) = v.youtubeId :: ids l := rfl

theorem ids_append (l1 l2 : List Video) : ids (l1 ++ l2) = ids l1 ++ ids l2 := by
  unfold ids
  simp

theorem insertMany_mem_iff (batch : List Video) :
    ∀ (existing : List Video) (i : String),
      i ∈ ids (insertManyUnordered existing batch).1 ↔
        i ∈ ids existing ∨ i ∈ ids batch := by
  induction batch with
  | nil =>
    intro existing i
    simp [insertManyUnordered, ids]
  | cons v rest ih =>
    intro existing i
    unfold insertManyUnordered
    by_cases hv : v.youtubeId ∈ ids existing
    · rw [if_pos hv]
      show i ∈ ids (insertManyUnordered existing rest).1 ↔ _
      rw [ih existing i, ids_cons, List.mem_cons]
      constructor
      · rintro (h | h)
        · exact Or.inl h
        · exact Or.inr (Or.inr h)
      · rintro (h | h | h)
        · exact Or.inl h
        · exact Or.inl (h ▸ hv)
        · exact Or.inr h
    · rw [if_neg hv]
      rw [ih (existing ++ [v]) i, ids_append, ids_cons]
      simp [ids, List.mem_append, List.mem_cons, or_assoc]

theorem insertMany_flag_of_dup (batch : List Video) :
    ∀ existing : List Video,
      (∃ v, v ∈ batch ∧ v.youtubeId ∈ ids existing) →
      (insertManyUnordered existing batch).2 = true := by
  induction batch with
  | nil =>
    rintro existing ⟨v, hv, _⟩
    simp at hv
  | cons v rest ih =>
    rintro existing ⟨w, hw, hwid⟩
    unfold insertManyUnordered
    by_cases hv : v.youtubeId ∈ ids existing
    · rw [if_pos hv]
    · rw [if_neg hv]
      rcases List.mem_cons.mp hw with hwv | hwr
      · exact absurd (hwv ▸ hwid) hv
      · apply ih
        refine ⟨w, hwr, ?_⟩
        rw [ids_append]
        exact List.mem_append_left _ hwid

theorem insertMany_nodup (batch : List Video) :
    ∀ existing : List Video, (ids existing).Nodup →
      (ids (insertManyUnordered existing batch).1).Nodup := by
  induction batch with
  | nil => intro existing h; exact h
  | cons v rest ih =>
    intro existing h
    unfold insertManyUnordered
    by_cases hv : v.youtubeId ∈ ids existing
    · rw [if_pos hv]
      exact ih existing h
    · rw [if_neg hv]
      apply ih
      rw [ids_append]
      have e : ids [v] = [v.youtubeId] := rfl
      rw [e]
      refine List.Nodup.append h (List.nodup_singleton _) ?_
      intro a ha hb
      rw [List.mem_singleton] at hb
      exact hv (hb ▸ ha)

/-- C7: a batch some of whose items carry a `youtubeId` already stored is
issued as a single unordered batch write: the write reports the
duplicate-key error (which `saveVideosToDB` only logs), the duplicate id is
not stored a second time (the unique ids stay duplicate-free), and every id
of the batch or of the pre-existing documents is present afterwards — the
failure does not abort the non-duplicate inserts. -/
theorem c7_unordered_insert_tolerates_duplicates (existing batch : List Video)
    (hdup : ∃ v, v ∈ batch ∧ v.youtubeId ∈ ids existing) :
    (insertManyUnordered existing batch).2 = true ∧
    (∀ i, i ∈ ids (insertManyUnordered existing batch).1 ↔
      i ∈ ids existing ∨ i ∈ ids batch) ∧
    ((ids existing).Nodup → (ids (insertManyUnordered existing batch).1).Nodup) :=
  ⟨insertMany_flag_of_dup batch existing hdup,
   fun i => insertMany_mem_iff batch existing i,
   fun h => insertMany_nodup batch existing h⟩

end Worker

namespace Server

theorem c4_next_link_iff_more_documents_witness :
    (respOf (getVideos tm0 cache0 true st0 r0)).map (fun m => m.next != "") = some true := by
  obtain ⟨resp, hok, hiff, h2, h3⟩ :=
    c4_next_link_iff_more_documents tm0 cache0 st0 r0 (by decide) (by decide) (by decide)
  rw [hok]
  have hne : resp.next ≠ "" := hiff.mpr (by decide)
  simp [respOf, hne]

theorem c5_unknown_keyword_400_list_failure_500_witness :
    getVideos tm0 [] true st0 rNews =
      .err ⟨400, "Videos for " ++ keywordOf rNews ++ " are not being collected"⟩ ∧
    getVideos tm0 [] false st0 rNews = .err internalError :=
  ⟨(c5_unknown_keyword_400_list_failure_500 tm0 [] st0 rNews (by decide)).1 (by decide),
   (c5_unknown_keyword_400_list_failure_500 tm0 [] st0 rNews (by decide)).2.1⟩

theorem c8_defaults_and_unclamped_limit_witness :
    (respOf (getVideos tm0 cache0 true st0 r3)).map videosResponseMsg.page = some 0 ∧
    (respOf (getVideos tm0 cache0 true st0 r3)).map videosResponseMsg.limit = some 60 ∧
    (respOf (getVideos tm0 cache0 true st0 r4)).map videosResponseMsg.limit = some 10 := by
  refine ⟨?_, ?_, ?_⟩
  · obtain ⟨resp, hok, hp⟩ :=
      (c8_defaults_and_unclamped_limit tm0 cache0 st0 r3 (by decide) (by decide)).1 (by decide)
    rw [hok]
    simp [respOf, hp]
  · obtain ⟨resp, hok, hl, hres⟩ :=
      (c8_defaults_and_unclamped_limit tm0 cache0 st0 r3 (by decide) (by decide)).2.2 60
        (by decide) (by decide)
    rw [hok]
    simp [respOf, hl]
  · obtain ⟨resp, hok, hl⟩ :=
      (c8_defaults_and_unclamped_limit tm0 cache0 st0 r4 (by decide) (by decide)).2.1 (by decide)
    rw [hok]
    simp [respOf, hl, defaultLimit]

theorem c9_prev_next_always_emitted_witness :
    (respOf (getVideos tm0 cache0 true st0 r1)).map
      (fun m => (keysOf (encodeResponse m), m.prev == "", m.next == "")) =
      some (["page", "limit", "result", "prev", "next"], false, true) := by
  obtain ⟨resp, hok, hkeys, hprev, hnext⟩ :=
    c9_prev_next_always_emitted tm0 cache0 st0 r1 (by decide) (by decide) (by decide)
  rw [hok]
  have h1 : resp.prev ≠ "" := fun h => absurd (hprev.mp h) (by decide)
  have h2 : resp.next = "" := hnext.mpr (by decide)
  simp [respOf, hkeys, h1, h2]

theorem c10_negative_page_accepted_witness :
    getVideos tm0 cache0 true st0 r2 = .err internalError :=
  (c10_negative_page_accepted tm0 cache0 st0 r2 (-1) (by decide) (by decide) (by decide)).2.1
    (by decide)

end Server

namespace Worker

theorem c6_indexes_created_exactly_once_witness :
    (runPersists ws0 "music" [[w1], [w2], [w1]]).2 = 1 :=
  c6_indexes_created_exactly_once ws0 "music" [[w1], [w2], [w1]]
    (by decide) (by decide) (by decide)

theorem c7_unordered_insert_tolerates_duplicates_witness :
    (insertManyUnordered [w1] [w1, w2]).2 = true ∧
    ids (insertManyUnordered [w1] [w1, w2]).1 = ["a1", "a2"] :=
  ⟨(c7_unordered_insert_tolerates_duplicates [w1] [w1, w2] ⟨w1, by decide, by decide⟩).1,
   by decide⟩

end Worker
